import Mathlib

/-!
Verification development for the advocates directory application.

The embedding models:
* the `GET /api/advocates` route handler (search condition construction,
  the "<N> years" regex reinterpretation, count query, paginated select
  query, error boundary),
* the Postgres `ILIKE` pattern matching invoked through the ORM
  (`%term%` patterns, with `%` and `_` wildcards and `\` escapes,
  ASCII case folding),
* JavaScript helpers the route relies on (`parseInt(x, 10)`, the `||`
  defaulting idiom, `Math.ceil`),
* the client page state operations (previous/next/reset, search-driven
  page reset).

Database rows are a `List Advocate`; the two queries the handler issues
are modelled as operations on that list, with injectable failure flags
standing for thrown query errors caught by the handler's `try`/`catch`.
-/

/-- ASCII space characters recognised by the JavaScript regex class
`\s` (restricted to the ASCII range, which is all the route's regex
ever meets). -/
def jsSpace (c : Char) : Bool :=
  c == ' ' || c == '\t' || c == '\n' || c == '\r' || c == '\x0b' || c == '\x0c'

/-- Uppercase/lowercase ASCII letter pairs, used to model the case
folding performed by `ILIKE` and by the regex flag `i`. -/
def upperLowerPairs : List (Char × Char) :=
  [('A', 'a'), ('B', 'b'), ('C', 'c'), ('D', 'd'), ('E', 'e'), ('F', 'f'),
   ('G', 'g'), ('H', 'h'), ('I', 'i'), ('J', 'j'), ('K', 'k'), ('L', 'l'),
   ('M', 'm'), ('N', 'n'), ('O', 'o'), ('P', 'p'), ('Q', 'q'), ('R', 'r'),
   ('S', 's'), ('T', 't'), ('U', 'u'), ('V', 'v'), ('W', 'w'), ('X', 'x'),
   ('Y', 'y'), ('Z', 'z')]

/-- ASCII case folding: uppercase letters map to lowercase, everything
else is unchanged. -/
def lowerAscii (c : Char) : Char :=
  ((upperLowerPairs.find? (fun p => p.1 == c)).map Prod.snd).getD c

/-- Characters of a string, case folded. -/
def lowList (s : String) : List Char :=
  s.toList.map lowerAscii

/-- Base-10 value of a digit string (the numeric effect of
`parseInt(digits, 10)`). -/
def digitsVal (ds : List Char) : Nat :=
  ds.foldl (fun n c => 10 * n + (c.toNat - 48)) 0

/-- SQL `LIKE` matching with explicit fuel (the fuel only serves to
make the recursion structural; `likeMatch` supplies enough of it).
`%` matches any sequence of characters, `_` matches exactly one
character, `\` escapes the following pattern character.  A trailing
lone `\` is treated as a literal; Postgres raises an error there, and
the patterns the route builds (always ending in `%`) never produce
it. -/
def likeMatchF : Nat → List Char → List Char → Bool
  | 0, _, _ => false
  | _ + 1, [], s => s.isEmpty
  | f + 1, c :: ps, s =>
    if c = '%' then
      likeMatchF f ps s ||
        (match s with
          | [] => false
          | _ :: s2 => likeMatchF f ('%' :: ps) s2)
    else if c = '_' then
      (match s with
        | [] => false
        | _ :: s2 => likeMatchF f ps s2)
    else if c = '\\' then
      (match ps with
        | c2 :: ps2 =>
          (match s with
            | [] => false
            | d :: s2 => c2 == d && likeMatchF f ps2 s2)
        | [] =>
          (match s with
            | [] => false
            | d :: s2 => c == d && likeMatchF f [] s2))
    else
      (match s with
        | [] => false
        | d :: s2 => c == d && likeMatchF f ps s2)

/-- SQL `LIKE` matching of pattern `p` against string `s`. -/
def likeMatch (p s : List Char) : Bool :=
  likeMatchF (p.length + s.length + 1) p s

/-- Boolean prefix test used to state the substring reading of the
search operation. -/
def hasPrefixB : List Char → List Char → Bool
  | [], _ => true
  | _ :: _, [] => false
  | c :: t, d :: s => c == d && hasPrefixB t s

/-- Boolean substring test: `t` occurs contiguously inside `s`. -/
def hasSubB (t : List Char) : List Char → Bool
  | [] => hasPrefixB t []
  | d :: s => hasPrefixB t (d :: s) || hasSubB t s

/-- Escaping applied by Postgres when rendering a JSON string value to
text (quote and backslash escapes; the seed data contains no control
characters). -/
def jsonEscape (s : String) : String :=
  String.mk (s.toList.foldr
    (fun c acc =>
      if c = '"' then '\\' :: '"' :: acc
      else if c = '\\' then '\\' :: '\\' :: acc
      else c :: acc) [])

/-- Text rendering of the `specialties` JSONB array column, as produced
by the `::text` cast in the route's query (Postgres prints jsonb arrays
with a comma-space separator). -/
def specialtiesJsonText (l : List String) : String :=
  "[" ++ String.intercalate (", ") (l.map (fun s => "\"" ++ jsonEscape s ++ "\"")) ++ "]"

/-- One advocate row of the `advocates` table (schema: text name/city/
degree columns, jsonb specialties, integer years of experience, bigint
phone number). -/
structure Advocate where
  id : Nat
  firstName : String
  lastName : String
  city : String
  degree : String
  specialties : List String
  yearsOfExperience : Nat
  phoneNumber : Nat
deriving DecidableEq

/-- Model of `ilike(field, '%' + search + '%')`: case-insensitive SQL
LIKE with the search term wrapped in `%` wildcards. -/
def ilikeContains (field : String) (search : String) : Bool :=
  likeMatch ('%' :: (lowList search ++ ['%'])) (lowList field)

/-- The `or(...)` of ILIKE conditions the route builds for a non-years
search term: first name, last name, city, degree, phone number cast to
text, years of experience cast to text, specialties jsonb cast to
text. -/
def advTextMatch (search : String) (a : Advocate) : Bool :=
  ilikeContains a.firstName search ||
    ilikeContains a.lastName search ||
    ilikeContains a.city search ||
    ilikeContains a.degree search ||
    ilikeContains (toString a.phoneNumber) search ||
    ilikeContains (toString a.yearsOfExperience) search ||
    ilikeContains (specialtiesJsonText a.specialties) search

/-- The four alternatives of the regex group `(year|yr|yrs|years)`,
lowercased. -/
def unitStrings : List (List Char) :=
  [['y', 'e', 'a', 'r'], ['y', 'r'], ['y', 'r', 's'], ['y', 'e', 'a', 'r', 's']]

/-- Lowercased characters of the literal `experience`. -/
def expChars : List Char :=
  ['e', 'x', 'p', 'e', 'r', 'i', 'e', 'n', 'c', 'e']

/-- Recogniser for the optional regex tail `(\s+of\s+experience)?$`
applied after a unit alternative: either the input ends, or it is one
or more spaces, `of`, one or more spaces, `experience`, end. -/
def expTail (r : List Char) : Bool :=
  r.isEmpty ||
    (!(r.takeWhile jsSpace).isEmpty &&
      List.isPrefixOf ['o', 'f'] (r.dropWhile jsSpace) &&
      !(((r.dropWhile jsSpace).drop 2).takeWhile jsSpace).isEmpty &&
      (((r.dropWhile jsSpace).drop 2).dropWhile jsSpace == expChars))

/-- Recogniser for `(year|yr|yrs|years)(\s+of\s+experience)?$`: some
alternative is a prefix of the input and the rest satisfies
`expTail`. -/
def unitTail (r : List Char) : Bool :=
  unitStrings.any (fun u => List.isPrefixOf u r && expTail (r.drop u.length))

/-- The route's `search.match(/^(\d+)\s*(year|yr|yrs|years)(\s+of\s+experience)?$/i)`
followed by `parseInt(yearsMatch[1], 10)`: returns the captured number
when the term has the years form, `none` otherwise.  The regex is
anchored at both ends, so the leading digit run, the space run after it
and the space runs inside the optional tail are forced, making the
backtracking search equivalent to this deterministic scan. -/
def yearsTermParse (s : String) : Option Nat :=
  if ((lowList s).takeWhile Char.isDigit).isEmpty then none
  else if unitTail (((lowList s).dropWhile Char.isDigit).dropWhile jsSpace) then
    some (digitsVal ((lowList s).takeWhile Char.isDigit))
  else none

/-- The `searchConditions` value of the route: `undefined` (here
`none`) for an empty term, the minimum-experience predicate for a
years-form term, the text-field `or` otherwise. -/
def searchCond (search : String) : Option (Advocate → Bool) :=
  if search = "" then none
  else
    match yearsTermParse search with
    | some n => some (fun a => decide (n ≤ a.yearsOfExperience))
    | none => some (fun a => advTextMatch search a)

/-- Rows satisfying a `where` condition; no condition keeps the whole
table (the route omits `.where(...)` in that case). -/
def condRows (tbl : List Advocate) (cond : Option (Advocate → Bool)) : List Advocate :=
  match cond with
  | none => tbl
  | some c => tbl.filter c

/-- Database handle: the advocates table plus failure-injection flags
standing for a thrown error in the count query or the select query. -/
structure Db where
  table : List Advocate
  countFails : Bool
  selectFails : Bool

/-- The count query `select count(*) from advocates [where cond]`. -/
def dbCount (db : Db) (cond : Option (Advocate → Bool)) : Except String Nat :=
  if db.countFails then Except.error ("query failed")
  else Except.ok (condRows db.table cond).length

/-- The page query
`select * from advocates [where cond] limit lim offset off`.
Negative values never reach this model on the paths the claims cover
(they would make Postgres raise); `Int.toNat` truncates them to 0. -/
def dbSelect (db : Db) (cond : Option (Advocate → Bool)) (lim off : Int) :
    Except String (List Advocate) :=
  if db.selectFails then Except.error ("query failed")
  else Except.ok (((condRows db.table cond).drop off.toNat).take lim.toNat)

/-- The JSON body shape the route returns on success. -/
structure PaginatedResponse where
  data : List Advocate
  total : Nat
  page : Int
  limit : Int
  totalPages : Nat
deriving DecidableEq

/-- Body of a route response: either the paginated payload or the
error object `{"error": msg}`. -/
inductive ResponseBody where
  | page (r : PaginatedResponse)
  | failure (msg : String)
deriving DecidableEq

/-- A route response: HTTP status plus JSON body. -/
structure ApiResponse where
  status : Nat
  body : ResponseBody
deriving DecidableEq

/-- Does the body carry the paginated payload? -/
def ResponseBody.isPage : ResponseBody → Bool
  | ResponseBody.page _ => true
  | ResponseBody.failure _ => false

/-- The route's `Math.ceil(total / limit)`.  For `limit ≤ 0` JavaScript
produces `Infinity` or `NaN`, which have no integer counterpart; the
model returns 0 there, and every claim about `totalPages` assumes a
positive page size. -/
def ceilPages (total : Nat) (limit : Int) : Nat :=
  if limit ≤ 0 then 0 else (total + limit.toNat - 1) / limit.toNat

/-- The route handler body after query-string parsing: builds the
search conditions, runs the count query, computes `totalPages`, runs
the paginated select with `offset = (page - 1) * limit`, and catches
any query error into a 500 response with the generic message. -/
def GETwithParams (db : Db) (search : String) (limit page : Int) : ApiResponse :=
  match dbCount db (searchCond search) with
  | Except.error _ =>
    { status := 500, body := ResponseBody.failure ("Failed to fetch advocates") }
  | Except.ok total =>
    match dbSelect db (searchCond search) limit ((page - 1) * limit) with
    | Except.error _ =>
      { status := 500, body := ResponseBody.failure ("Failed to fetch advocates") }
    | Except.ok rows =>
      { status := 200,
        body := ResponseBody.page
          { data := rows, total := total, page := page, limit := limit,
            totalPages := ceilPages total limit } }

/-- Status code of a response. -/
def respStatus (r : ApiResponse) : Nat := r.status

/-- The `data` array of a response (empty for an error body). -/
def respData (r : ApiResponse) : List Advocate :=
  match r.body with
  | ResponseBody.page pr => pr.data
  | ResponseBody.failure _ => []

/-- The `total` field of a response (0 for an error body). -/
def respTotal (r : ApiResponse) : Nat :=
  match r.body with
  | ResponseBody.page pr => pr.total
  | ResponseBody.failure _ => 0

/-- The `totalPages` field of a response (0 for an error body). -/
def respTotalPages (r : ApiResponse) : Nat :=
  match r.body with
  | ResponseBody.page pr => pr.totalPages
  | ResponseBody.failure _ => 0

/-- Longest leading digit run of `parseInt`, as a number; `none` for
the `NaN` outcome. -/
def parseDigits (cs : List Char) : Option Nat :=
  if (cs.takeWhile Char.isDigit).isEmpty then none
  else some (digitsVal (cs.takeWhile Char.isDigit))

/-- JavaScript `parseInt(s, 10)`: skip leading whitespace, read an
optional sign and then the longest digit prefix; `none` models `NaN`.
(JavaScript loses precision beyond 2^53; the model is exact, and the
claims only meet small values.) -/
def parseIntJS (s : String) : Option Int :=
  match s.toList.dropWhile jsSpace with
  | [] => none
  | c :: rest =>
    if c = '-' then (parseDigits rest).map (fun n => -(n : Int))
    else if c = '+' then (parseDigits rest).map (fun n => ((n : Nat) : Int))
    else (parseDigits (c :: rest)).map (fun n => ((n : Nat) : Int))

/-- The `x || d` defaulting idiom applied to
`searchParams.get(name) || d`: an absent parameter (`null`) and the
empty string are both falsy and give the default. -/
def jsOrElse (v : Option String) (d : String) : String :=
  match v with
  | none => d
  | some s => if s = "" then d else s

/-- Query parameters of a GET request to the advocates endpoint. -/
structure Req where
  searchParam : Option String
  limitParam : Option String
  pageParam : Option String

/-- The route's `searchParams.get("search") || ""`. -/
def reqSearch (r : Req) : String := jsOrElse r.searchParam ("")

/-- The route's `parseInt(searchParams.get("limit") || "20", 10)`. -/
def reqLimit (r : Req) : Option Int := parseIntJS (jsOrElse r.limitParam ("20"))

/-- The route's `parseInt(searchParams.get("page") || "1", 10)`. -/
def reqPage (r : Req) : Option Int := parseIntJS (jsOrElse r.pageParam ("1"))

/-- The full route handler: parse the query string, then run the
handler body.  `none` is the path on which `limit` or `page` parse to
`NaN`, whose floating-point arithmetic the integer model does not
represent; no claim depends on it. -/
def GET (db : Db) (r : Req) : Option ApiResponse :=
  match reqLimit r, reqPage r with
  | some l, some p => some (GETwithParams db (reqSearch r) l p)
  | _, _ => none

/-- Database operations, used to record which statements the route
issues against the table. -/
inductive DbOp where
  | countRows (cond : Option (Advocate → Bool))
  | selectRows (cond : Option (Advocate → Bool)) (lim off : Int)
  | insertRow (a : Advocate)
  | deleteRows (cond : Advocate → Bool)
  | updateRows (cond : Advocate → Bool) (f : Advocate → Advocate)

/-- Effect of an operation on the table: the two read operations leave
it unchanged, the write operations modify it. -/
def DbOp.applyTable : DbOp → List Advocate → List Advocate
  | DbOp.countRows _, t => t
  | DbOp.selectRows _ _ _, t => t
  | DbOp.insertRow a, t => t ++ [a]
  | DbOp.deleteRows c, t => t.filter (fun a => !c a)
  | DbOp.updateRows c f, t => t.map (fun a => if c a then f a else a)

/-- Is the operation a pure read? -/
def DbOp.isRead : DbOp → Bool
  | DbOp.countRows _ => true
  | DbOp.selectRows _ _ _ => true
  | _ => false

/-- The operation trace of one GET request: the count query followed by
the paginated select, both with the same search conditions. -/
def GETops (search : String) (limit page : Int) : List DbOp :=
  [DbOp.countRows (searchCond search),
   DbOp.selectRows (searchCond search) limit ((page - 1) * limit)]

/-- Client page state (the pieces of `Home` component state the
pagination claims are about). -/
structure ClientState where
  searchTerm : String
  currentPage : Nat
  totalPages : Nat
  loading : Bool
deriving DecidableEq

/-- The client's `onPreviousPage`: `setCurrentPage(Math.max(1, prev - 1))`. -/
def onPreviousPage (s : ClientState) : ClientState :=
  { s with currentPage := max 1 (s.currentPage - 1) }

/-- The client's `onNextPage`: `setCurrentPage(Math.min(totalPages, prev + 1))`. -/
def onNextPage (s : ClientState) : ClientState :=
  { s with currentPage := min s.totalPages (s.currentPage + 1) }

/-- The client's `onReset`: clear the search box and go to page 1. -/
def onReset (s : ClientState) : ClientState :=
  { s with searchTerm := "", currentPage := 1 }

/-- The client effect that runs when the debounced search term changes:
`setCurrentPage(1)`. -/
def pageResetOnSearch (s : ClientState) : ClientState :=
  { s with currentPage := 1 }

/-- Whether the Previous button is clickable:
`disabled = currentPage === 1 || loading`. -/
def prevEnabled (s : ClientState) : Bool :=
  !(s.currentPage == 1) && !s.loading

/-- Whether the Next button is clickable:
`disabled = currentPage === totalPages || loading`. -/
def nextEnabled (s : ClientState) : Bool :=
  !(s.currentPage == s.totalPages) && !s.loading

/-- The seven text renderings the specification's substring reading of
the search refers to: name fields, city, degree, phone number and years
of experience rendered as text, and the specialties list rendered as
text. -/
def specRenderings (a : Advocate) : List String :=
  [a.firstName, a.lastName, a.city, a.degree, toString a.phoneNumber,
   toString a.yearsOfExperience, specialtiesJsonText a.specialties]

/-- Case-insensitive substring test between strings, the relation the
specification claims the text search implements. -/
def substrCI (term field : String) : Bool :=
  hasSubB (lowList term) (lowList field)

/-- Modelled from the spec sentence of claim C5: a row matches when the
term is a case-insensitive substring of at least one of the rendered
fields. -/
def specSubstringMatch (term : String) (a : Advocate) : Bool :=
  (specRenderings a).any (fun f => substrCI term f)

/-- Shape of the optional `of experience` tail, used to state the
years-form hypothesis of claim C2 structurally. -/
def ExpTailForm (ext : List Char) : Prop :=
  ext = [] ∨
    ∃ sp1 sp2 : List Char,
      sp1 ≠ [] ∧ (∀ c ∈ sp1, jsSpace c = true) ∧
      sp2 ≠ [] ∧ (∀ c ∈ sp2, jsSpace c = true) ∧
      ext = sp1 ++ 'o' :: 'f' :: (sp2 ++ expChars)

/-- A term that contains none of the SQL LIKE metacharacters, so that
LIKE matching degenerates to a substring test. -/
def WildcardFree (t : List Char) : Prop :=
  ∀ c ∈ t, c ≠ '%' ∧ c ≠ '_' ∧ c ≠ '\\'

/-- Sample rows used by the witness theorems. -/
def advA : Advocate :=
  { id := 1, firstName := "Alice", lastName := "Nguyen", city := "Austin",
    degree := "MD", specialties := ["Oncology"], yearsOfExperience := 5,
    phoneNumber := 5551234567 }

/-- Second sample row. -/
def advB : Advocate :=
  { id := 2, firstName := "Bruno", lastName := "Silva", city := "Denver",
    degree := "PhD", specialties := [], yearsOfExperience := 12,
    phoneNumber := 5559876543 }

/-- Third sample row. -/
def advC : Advocate :=
  { id := 3, firstName := "Carla", lastName := "Jones", city := "Boston",
    degree := "MSW", specialties := ["Pediatrics", "Trauma"],
    yearsOfExperience := 2, phoneNumber := 5550001111 }

/-! ## Take/drop helpers -/

theorem takeWhile_append_of (p : Char → Bool) :
    ∀ (l1 l2 : List Char), (∀ c ∈ l1, p c = true) →
      (∀ c, l2.head? = some c → p c = false) →
      (l1 ++ l2).takeWhile p = l1
  | [], l2, _, h2 => by
    cases l2 with
    | nil => rfl
    | cons c t =>
      simp [List.takeWhile_cons, h2 c rfl]
  | c :: l1, l2, h1, h2 => by
    have hc : p c = true := h1 c (List.mem_cons_self c l1)
    simp only [List.cons_append, List.takeWhile_cons, hc, if_true]
    rw [takeWhile_append_of p l1 l2 (fun d hd => h1 d (List.mem_cons_of_mem c hd)) h2]

theorem dropWhile_append_of (p : Char → Bool) :
    ∀ (l1 l2 : List Char), (∀ c ∈ l1, p c = true) →
      (∀ c, l2.head? = some c → p c = false) →
      (l1 ++ l2).dropWhile p = l2
  | [], l2, _, h2 => by
    cases l2 with
    | nil => rfl
    | cons c t =>
      simp [List.dropWhile_cons, h2 c rfl]
  | c :: l1, l2, h1, h2 => by
    have hc : p c = true := h1 c (List.mem_cons_self c l1)
    simp only [List.cons_append, List.dropWhile_cons, hc, if_true]
    exact dropWhile_append_of p l1 l2 (fun d hd => h1 d (List.mem_cons_of_mem c hd)) h2

/-! ## LIKE matching: fuel stability and step equations -/

theorem likeMatchF_congr :
    ∀ (f g : Nat) (p s : List Char), p.length + s.length < f → p.length + s.length < g →
      likeMatchF f p s = likeMatchF g p s := by
  intro f
  induction f with
  | zero =>
    intro g p s hf _
    exact absurd hf (Nat.not_lt_zero _)
  | succ f IH =>
    intro g p s hf hg
    cases g with
    | zero => exact absurd hg (Nat.not_lt_zero _)
    | succ g =>
      cases p with
      | nil => rfl
      | cons c ps =>
        simp only [likeMatchF]
        by_cases hc : c = '%'
        · rw [if_pos hc, if_pos hc]
          have h1 : likeMatchF f ps s = likeMatchF g ps s := by
            apply IH <;> (simp only [List.length_cons] at hf hg; omega)
          rw [h1]
          cases s with
          | nil => rfl
          | cons d s2 =>
            have h2 : likeMatchF f ('%' :: ps) s2 = likeMatchF g ('%' :: ps) s2 := by
              apply IH <;> (simp only [List.length_cons] at hf hg ⊢; omega)
            simp [h2]
        · rw [if_neg hc, if_neg hc]
          by_cases hu : c = '_'
          · rw [if_pos hu, if_pos hu]
            cases s with
            | nil => rfl
            | cons d s2 =>
              have h2 : likeMatchF f ps s2 = likeMatchF g ps s2 := by
                apply IH <;> (simp only [List.length_cons] at hf hg; omega)
              simp [h2]
          · rw [if_neg hu, if_neg hu]
            by_cases hb : c = '\\'
            · rw [if_pos hb, if_pos hb]
              cases ps with
              | nil =>
                cases s with
                | nil => rfl
                | cons d s2 =>
                  have h2 : likeMatchF f [] s2 = likeMatchF g [] s2 := by
                    apply IH <;> (simp only [List.length_cons, List.length_nil] at hf hg ⊢; omega)
                  simp [h2]
              | cons c2 ps2 =>
                cases s with
                | nil => rfl
                | cons d s2 =>
                  have h2 : likeMatchF f ps2 s2 = likeMatchF g ps2 s2 := by
                    apply IH <;> (simp only [List.length_cons] at hf hg ⊢; omega)
                  simp [h2]
            · rw [if_neg hb, if_neg hb]
              cases s with
              | nil => rfl
              | cons d s2 =>
                have h2 : likeMatchF f ps s2 = likeMatchF g ps s2 := by
                  apply IH <;> (simp only [List.length_cons] at hf hg; omega)
                simp [h2]

theorem likeMatchF_big (f : Nat) (p s : List Char) (h : p.length + s.length < f) :
    likeMatchF f p s = likeMatch p s :=
  likeMatchF_congr f (p.length + s.length + 1) p s h (by omega)

theorem likeMatch_nil_pat (s : List Char) : likeMatch [] s = s.isEmpty := rfl

theorem likeMatch_pct_nil (ps : List Char) :
    likeMatch ('%' :: ps) [] = likeMatch ps [] := by
  have key : ∀ F : Nat, ps.length < F →
      likeMatchF (F + 1) ('%' :: ps) [] = likeMatch ps [] := by
    intro F hF
    have h1 : likeMatchF (F + 1) ('%' :: ps) [] = (likeMatchF F ps [] || false) := rfl
    rw [h1, likeMatchF_big F ps [] (by simp only [List.length_nil]; omega)]
    simp
  exact key (('%' :: ps).length + ([] : List Char).length)
    (by simp only [List.length_cons, List.length_nil]; omega)

theorem likeMatch_pct_cons (ps : List Char) (d : Char) (s2 : List Char) :
    likeMatch ('%' :: ps) (d :: s2) =
      (likeMatch ps (d :: s2) || likeMatch ('%' :: ps) s2) := by
  have key : ∀ F : Nat, ps.length + s2.length + 1 < F →
      likeMatchF (F + 1) ('%' :: ps) (d :: s2)
        = (likeMatch ps (d :: s2) || likeMatch ('%' :: ps) s2) := by
    intro F hF
    have h1 : likeMatchF (F + 1) ('%' :: ps) (d :: s2)
        = (likeMatchF F ps (d :: s2) || likeMatchF F ('%' :: ps) s2) := rfl
    rw [h1, likeMatchF_big F ps (d :: s2) (by simp only [List.length_cons]; omega),
      likeMatchF_big F ('%' :: ps) s2 (by simp only [List.length_cons]; omega)]
  exact key (('%' :: ps).length + (d :: s2).length)
    (by simp only [List.length_cons]; omega)

theorem likeMatch_lit_nil (c : Char) (ps : List Char)
    (hc1 : c ≠ '%') (hc2 : c ≠ '_') (hc3 : c ≠ '\\') :
    likeMatch (c :: ps) [] = false := by
  show likeMatchF ((c :: ps).length + ([] : List Char).length + 1) (c :: ps) [] = false
  simp only [likeMatchF, if_neg hc1, if_neg hc2, if_neg hc3]

theorem likeMatch_lit_cons (c : Char) (ps : List Char) (d : Char) (s2 : List Char)
    (hc1 : c ≠ '%') (hc2 : c ≠ '_') (hc3 : c ≠ '\\') :
    likeMatch (c :: ps) (d :: s2) = (c == d && likeMatch ps s2) := by
  show likeMatchF ((c :: ps).length + (d :: s2).length + 1) (c :: ps) (d :: s2)
      = (c == d && likeMatch ps s2)
  simp only [likeMatchF, if_neg hc1, if_neg hc2, if_neg hc3]
  rw [likeMatchF_big ((c :: ps).length + (d :: s2).length) ps s2
        (by simp only [List.length_cons]; omega)]

/-! ## LIKE on wildcard-free patterns is the substring test -/

theorem likeMatch_allpct (s : List Char) : likeMatch ['%'] s = true := by
  induction s with
  | nil => decide
  | cons d s2 IH =>
    rw [likeMatch_pct_cons, IH]
    simp

theorem likeMatch_lit_prefix (t : List Char) :
    WildcardFree t → ∀ s, likeMatch (t ++ ['%']) s = hasPrefixB t s := by
  induction t with
  | nil =>
    intro _ s
    simpa using likeMatch_allpct s
  | cons c t IH =>
    intro hfree s
    obtain ⟨hc1, hc2, hc3⟩ := hfree c (List.mem_cons_self c t)
    have IH2 := IH (fun d hd => hfree d (List.mem_cons_of_mem c hd))
    cases s with
    | nil =>
      rw [show ((c :: t) ++ ['%']) = c :: (t ++ ['%']) from rfl]
      rw [likeMatch_lit_nil c (t ++ ['%']) hc1 hc2 hc3]
      rfl
    | cons d s2 =>
      rw [show ((c :: t) ++ ['%']) = c :: (t ++ ['%']) from rfl]
      rw [likeMatch_lit_cons c (t ++ ['%']) d s2 hc1 hc2 hc3, IH2 s2]
      rfl

theorem likeMatch_sub (t : List Char) (hfree : WildcardFree t) :
    ∀ s, likeMatch ('%' :: (t ++ ['%'])) s = hasSubB t s := by
  intro s
  induction s with
  | nil =>
    rw [likeMatch_pct_nil, likeMatch_lit_prefix t hfree]
    rfl
  | cons d s2 IH =>
    rw [likeMatch_pct_cons, likeMatch_lit_prefix t hfree, IH]
    rfl

/-! ## Case folding facts -/

theorem lowerAscii_eq_low {c w : Char} (hw : w.toNat < 97) (h : lowerAscii c = w) : c = w := by
  unfold lowerAscii at h
  cases hfind : upperLowerPairs.find? (fun p => p.1 == c) with
  | none =>
    rw [hfind] at h
    simpa using h
  | some pr =>
    rw [hfind] at h
    simp only [Option.map_some', Option.getD_some] at h
    have hmem := List.mem_of_find?_eq_some hfind
    have h97 : ∀ p ∈ upperLowerPairs, 97 ≤ p.2.toNat := by decide
    have hle := h97 pr hmem
    rw [h] at hle
    omega

theorem lowList_empty_iff (s : String) : (lowList s = []) ↔ s = "" := by
  unfold lowList
  rw [List.map_eq_nil_iff]
  constructor
  · intro h
    cases s with
    | mk data =>
      cases data with
      | nil => rfl
      | cons c t => exact absurd h (by simp [String.toList])
  · intro h
    subst h
    rfl

theorem lowList_wildcard_free (s : String)
    (h : ∀ c ∈ s.toList, c ≠ '%' ∧ c ≠ '_' ∧ c ≠ '\\') :
    WildcardFree (lowList s) := by
  intro c hc
  unfold lowList at hc
  obtain ⟨d, hd, rfl⟩ := List.mem_map.mp hc
  obtain ⟨h1, h2, h3⟩ := h d hd
  refine ⟨?_, ?_, ?_⟩ <;> intro he
  · exact h1 (lowerAscii_eq_low (by decide) he)
  · exact h2 (lowerAscii_eq_low (by decide) he)
  · exact h3 (lowerAscii_eq_low (by decide) he)

/-! ## The text search and its substring reading -/

theorem ilike_eq_substrCI (field term : String)
    (hfree : WildcardFree (lowList term)) :
    ilikeContains field term = substrCI term field := by
  unfold ilikeContains substrCI
  exact likeMatch_sub (lowList term) hfree (lowList field)

theorem advTextMatch_eq_spec (s : String) (a : Advocate)
    (hfree : WildcardFree (lowList s)) :
    advTextMatch s a = specSubstringMatch s a := by
  unfold advTextMatch specSubstringMatch specRenderings
  simp only [List.any_cons, List.any_nil, Bool.or_false]
  rw [ilike_eq_substrCI a.firstName s hfree, ilike_eq_substrCI a.lastName s hfree,
    ilike_eq_substrCI a.city s hfree, ilike_eq_substrCI a.degree s hfree,
    ilike_eq_substrCI (toString a.phoneNumber) s hfree,
    ilike_eq_substrCI (toString a.yearsOfExperience) s hfree,
    ilike_eq_substrCI (specialtiesJsonText a.specialties) s hfree]
  simp [Bool.or_assoc]

theorem searchCond_text (s : String) (hne : s ≠ "") (hyears : yearsTermParse s = none) :
    searchCond s = some (fun a => advTextMatch s a) := by
  unfold searchCond
  rw [if_neg hne, hyears]

theorem searchCond_years (s : String) (n : Nat) (hne : s ≠ "")
    (hyears : yearsTermParse s = some n) :
    searchCond s = some (fun a => decide (n ≤ a.yearsOfExperience)) := by
  unfold searchCond
  rw [if_neg hne, hyears]

theorem yearsTermParse_low (s1 s2 : String) (h : lowList s1 = lowList s2) :
    yearsTermParse s1 = yearsTermParse s2 := by
  unfold yearsTermParse
  rw [h]

theorem advTextMatch_low (s1 s2 : String) (h : lowList s1 = lowList s2) (a : Advocate) :
    advTextMatch s1 a = advTextMatch s2 a := by
  unfold advTextMatch ilikeContains
  rw [h]

/-! ## Years-form parsing -/

theorem jsSpace_not_digit {c : Char} (h : jsSpace c = true) : c.isDigit = false := by
  unfold jsSpace at h
  simp only [Bool.or_eq_true, beq_iff_eq] at h
  rcases h with ((((h | h) | h) | h) | h) | h <;> subst h <;> decide

theorem isPrefixOf_append_self : ∀ (u v : List Char), List.isPrefixOf u (u ++ v) = true
  | [], _ => by simp [List.isPrefixOf]
  | c :: u, v => by
    simp only [List.cons_append, List.isPrefixOf, beq_self_eq_true, Bool.true_and]
    exact isPrefixOf_append_self u v

theorem expTail_of_form {ext : List Char} (h : ExpTailForm ext) : expTail ext = true := by
  rcases h with rfl | ⟨sp1, sp2, h1ne, h1sp, h2ne, h2sp, rfl⟩
  · rfl
  · unfold expTail
    have hhead_o : ∀ c, ('o' :: 'f' :: (sp2 ++ expChars)).head? = some c → jsSpace c = false := by
      intro c hc
      simp only [List.head?_cons] at hc
      have hco : c = 'o' := (Option.some.inj hc).symm
      subst hco
      decide
    have ht1 : ((sp1 ++ 'o' :: 'f' :: (sp2 ++ expChars)).takeWhile jsSpace) = sp1 :=
      takeWhile_append_of jsSpace sp1 _ h1sp hhead_o
    have hd1 : ((sp1 ++ 'o' :: 'f' :: (sp2 ++ expChars)).dropWhile jsSpace)
        = 'o' :: 'f' :: (sp2 ++ expChars) :=
      dropWhile_append_of jsSpace sp1 _ h1sp hhead_o
    have hhead_e : ∀ c, (sp2 ++ expChars).head? = some c → c.isDigit = false ∨ True := by
      exact fun c _ => Or.inr trivial
    have hhead_exp : ∀ c, expChars.head? = some c → jsSpace c = false := by
      intro c hc
      simp only [expChars, List.head?_cons] at hc
      have hce : c = 'e' := (Option.some.inj hc).symm
      subst hce
      decide
    have ht2 : ((sp2 ++ expChars).takeWhile jsSpace) = sp2 :=
      takeWhile_append_of jsSpace sp2 _ h2sp hhead_exp
    have hd2 : ((sp2 ++ expChars).dropWhile jsSpace) = expChars :=
      dropWhile_append_of jsSpace sp2 _ h2sp hhead_exp
    rw [ht1, hd1]
    simp only [List.drop_succ_cons, List.drop_zero]
    rw [ht2, hd2]
    simp only [List.isPrefixOf, beq_self_eq_true, Bool.true_and, Bool.and_true,
      beq_self_eq_true']
    simp [List.isEmpty_iff, h1ne, h2ne]

theorem yearsTermParse_of_form (s : String) (ds sp u ext : List Char)
    (hsplit : lowList s = ds ++ (sp ++ (u ++ ext)))
    (hds : ds ≠ []) (hdig : ∀ c ∈ ds, c.isDigit = true)
    (hsp : ∀ c ∈ sp, jsSpace c = true)
    (hu : u ∈ unitStrings) (hext : ExpTailForm ext) :
    yearsTermParse s = some (digitsVal ds) := by
  have hy : ∃ u2, u = 'y' :: u2 := by
    have hu2 := hu
    simp only [unitStrings, List.mem_cons, List.not_mem_nil, or_false] at hu2
    rcases hu2 with rfl | rfl | rfl | rfl
    all_goals exact ⟨_, rfl⟩
  obtain ⟨u2, hu_eq⟩ := hy
  have hhead_ue : ∀ c, (u ++ ext).head? = some c → c = 'y' := by
    intro c hc
    rw [hu_eq] at hc
    simp only [List.cons_append, List.head?_cons] at hc
    exact (Option.some.inj hc).symm
  have hhead_digit : ∀ c, (sp ++ (u ++ ext)).head? = some c → c.isDigit = false := by
    intro c hc
    cases sp with
    | nil =>
      simp only [List.nil_append] at hc
      rw [hhead_ue c hc]
      decide
    | cons c0 sp2 =>
      simp only [List.cons_append, List.head?_cons] at hc
      have hcc : c = c0 := (Option.some.inj hc).symm
      subst hcc
      exact jsSpace_not_digit (hsp c (List.mem_cons_self c sp2))
  have htake : ((lowList s).takeWhile Char.isDigit) = ds := by
    rw [hsplit]
    exact takeWhile_append_of Char.isDigit ds (sp ++ (u ++ ext)) hdig hhead_digit
  have hdrop : ((lowList s).dropWhile Char.isDigit) = sp ++ (u ++ ext) := by
    rw [hsplit]
    exact dropWhile_append_of Char.isDigit ds (sp ++ (u ++ ext)) hdig hhead_digit
  have hhead_space : ∀ c, (u ++ ext).head? = some c → jsSpace c = false := by
    intro c hc
    rw [hhead_ue c hc]
    decide
  have hdrop2 : ((sp ++ (u ++ ext)).dropWhile jsSpace) = u ++ ext :=
    dropWhile_append_of jsSpace sp (u ++ ext) hsp hhead_space
  have hunit : unitTail (u ++ ext) = true := by
    unfold unitTail
    rw [List.any_eq_true]
    refine ⟨u, hu, ?_⟩
    rw [Bool.and_eq_true]
    refine ⟨isPrefixOf_append_self u ext, ?_⟩
    rw [List.drop_left]
    exact expTail_of_form hext
  have hds_empty : ds.isEmpty = false := by
    cases ds with
    | nil => exact absurd rfl hds
    | cons a t => rfl
  unfold yearsTermParse
  rw [htake, hdrop, hdrop2, hunit, hds_empty]
  simp

/-! ## Claim C5 -/

/-- Claim C5 as stated is false on the code: the route's ILIKE patterns
give `%` , `_` and `\` their SQL wildcard meaning, so the search term
consisting of the single character `_` matches a row although it is not
a substring of any rendered field of that row. -/
theorem text_search_substring_counterexample :
    condRows [advB] (searchCond ("_")) = [advB] ∧
      specSubstringMatch ("_") advB = false := by
  constructor
  · decide
  · decide

/-- Claim C5 amended: for every non-empty search term not of the years
form and containing none of the SQL LIKE metacharacters `%`, `_`, `\`,
a row is returned exactly when the term is a case-insensitive substring
of one of the rendered fields; and for every term not of the years
form, the returned rows are unchanged when the case of the term is
changed. -/
theorem text_search_substring_amended (s : String) (tbl : List Advocate)
    (hne : s ≠ "") (hyears : yearsTermParse s = none) :
    ((∀ c ∈ s.toList, c ≠ '%' ∧ c ≠ '_' ∧ c ≠ '\\') →
        condRows tbl (searchCond s) = tbl.filter (fun a => specSubstringMatch s a)) ∧
      (∀ s2 : String, lowList s2 = lowList s →
        condRows tbl (searchCond s2) = condRows tbl (searchCond s)) := by
  constructor
  · intro hfree
    rw [searchCond_text s hne hyears]
    show tbl.filter (fun a => advTextMatch s a)
        = tbl.filter (fun a => specSubstringMatch s a)
    apply List.filter_congr
    intro a _
    exact advTextMatch_eq_spec s a (lowList_wildcard_free s hfree)
  · intro s2 h2
    have hne2 : s2 ≠ "" := by
      intro h
      subst h
      have hnil : lowList s = [] := by
        rw [← h2]
        rfl
      exact hne ((lowList_empty_iff s).mp hnil)
    have hyears2 : yearsTermParse s2 = none := by
      rw [yearsTermParse_low s2 s h2]
      exact hyears
    rw [searchCond_text s hne hyears, searchCond_text s2 hne2 hyears2]
    show tbl.filter (fun a => advTextMatch s2 a) = tbl.filter (fun a => advTextMatch s a)
    apply List.filter_congr
    intro a _
    exact advTextMatch_low s2 s h2 a

/-- Witness for the amended claim C5 at a concrete term and table. -/
theorem text_search_substring_amended_witness :
    (condRows [advA, advB] (searchCond ("ONCO"))
        = List.filter (fun a => specSubstringMatch ("ONCO") a) [advA, advB]) ∧
      condRows [advA, advB] (searchCond ("onco")) = condRows [advA, advB] (searchCond ("ONCO")) := by
  have h := text_search_substring_amended ("ONCO") [advA, advB] (by decide) (by decide)
  exact ⟨h.1 (by decide), h.2 ("onco") (by decide)⟩

/-! ## Claim C2 -/

/-- Claim C2: for every search term of the years form (digits, optional
spaces, one of year/yr/yrs/years, optionally spaces-of-spaces-experience,
matched case-insensitively on the folded characters), the route filters
advocates to those whose years of experience is at least the captured
number, and performs no text-field matching: the applied row filter is
extensionally the minimum-experience threshold. -/
theorem years_search_min_experience (s : String) (ds sp u ext : List Char)
    (tbl : List Advocate)
    (hsplit : lowList s = ds ++ (sp ++ (u ++ ext)))
    (hds : ds ≠ []) (hdig : ∀ c ∈ ds, c.isDigit = true)
    (hsp : ∀ c ∈ sp, jsSpace c = true)
    (hu : u ∈ unitStrings) (hext : ExpTailForm ext) :
    condRows tbl (searchCond s)
      = tbl.filter (fun a => decide (digitsVal ds ≤ a.yearsOfExperience)) := by
  have hne : s ≠ "" := by
    intro h
    subst h
    have hnil : (ds ++ (sp ++ (u ++ ext))) = [] := by
      rw [← hsplit]
      rfl
    rcases List.append_eq_nil.mp hnil with ⟨h1, _⟩
    exact hds h1
  rw [searchCond_years s (digitsVal ds) hne
    (yearsTermParse_of_form s ds sp u ext hsplit hds hdig hsp hu hext)]
  rfl

/-- Witness for claim C2 at the term `12 YRS of experience`. -/
theorem years_search_min_experience_witness :
    condRows [advA, advB] (searchCond ("12 YRS of experience"))
      = List.filter (fun a => decide (digitsVal ['1', '2'] ≤ a.yearsOfExperience))
          [advA, advB] := by
  exact years_search_min_experience ("12 YRS of experience") ['1', '2'] [' ']
    ['y', 'r', 's'] (' ' :: 'o' :: 'f' :: (' ' :: expChars)) [advA, advB]
    (by decide) (by decide) (by decide) (by decide) (by decide)
    (Or.inr ⟨[' '], [' '], by decide, by decide, by decide, by decide, by decide⟩)

/-! ## Ceiling arithmetic -/

theorem nat_ceil_div (t b : Nat) (hb : 0 < b) :
    (((t + b - 1) / b : Nat) : Int) = Int.ceil ((t : ℚ) / (b : ℚ)) := by
  have hdm := Nat.div_add_mod (t + b - 1) b
  have hmod : (t + b - 1) % b < b := Nat.mod_lt _ hb
  set q := (t + b - 1) / b with hq
  set r := (t + b - 1) % b with hr
  have h1 : t ≤ b * q ∧ b * q < t + b := by
    set m := b * q with hm
    omega
  have hbq : ((b : ℚ)) * ((q : ℚ)) < (t : ℚ) + (b : ℚ) := by exact_mod_cast h1.2
  have htq : ((t : ℚ)) ≤ ((b : ℚ)) * ((q : ℚ)) := by exact_mod_cast h1.1
  have hb0 : (0 : ℚ) < (b : ℚ) := by exact_mod_cast hb
  symm
  rw [Int.ceil_eq_iff]
  constructor
  · rw [lt_div_iff₀ hb0]
    push_cast
    nlinarith [hbq]
  · rw [div_le_iff₀ hb0]
    push_cast
    nlinarith [htq]

theorem ceilPages_eq_ceil (t : Nat) (l : Int) (hl : 0 < l) :
    ((ceilPages t l : Nat) : Int) = Int.ceil ((t : ℚ) / (l : ℚ)) := by
  unfold ceilPages
  rw [if_neg (by omega : ¬ l ≤ 0)]
  have hb : 0 < l.toNat := by omega
  have hcast : ((l.toNat : Nat) : ℚ) = (l : ℚ) := by
    have h2 : ((l.toNat : Nat) : Int) = l := Int.toNat_of_nonneg hl.le
    exact_mod_cast h2
  rw [← hcast]
  exact nat_ceil_div t l.toNat hb

/-! ## Shape of a successful GET -/

theorem GETwithParams_ok (db : Db) (search : String) (limit page : Int)
    (hc : db.countFails = false) (hs : db.selectFails = false) :
    GETwithParams db search limit page =
      { status := 200,
        body := ResponseBody.page
          { data := ((condRows db.table (searchCond search)).drop
                ((page - 1) * limit).toNat).take limit.toNat,
            total := (condRows db.table (searchCond search)).length,
            page := page, limit := limit,
            totalPages := ceilPages (condRows db.table (searchCond search)).length limit } } := by
  unfold GETwithParams dbCount dbSelect
  rw [hc, hs]
  simp

/-! ## Claim C1 -/

/-- Claim C1: on every successful GET, the response status is 200, the
`total` field is the number of rows satisfying the applied search
filter (all rows when the term is empty), and `totalPages` is the
ceiling of `total` divided by the page size. -/
theorem get_total_and_pages (db : Db) (search : String) (limit page : Int)
    (hc : db.countFails = false) (hs : db.selectFails = false) (hl : 0 < limit) :
    respStatus (GETwithParams db search limit page) = 200 ∧
      respTotal (GETwithParams db search limit page)
        = (condRows db.table (searchCond search)).length ∧
      (search = "" → respTotal (GETwithParams db search limit page) = db.table.length) ∧
      ((respTotalPages (GETwithParams db search limit page) : Nat) : Int)
        = Int.ceil ((respTotal (GETwithParams db search limit page) : ℚ) / (limit : ℚ)) := by
  rw [GETwithParams_ok db search limit page hc hs]
  refine ⟨rfl, rfl, ?_, ?_⟩
  · intro h
    subst h
    rfl
  · exact ceilPages_eq_ceil _ limit hl

/-- Witness for claim C1. -/
theorem get_total_and_pages_witness :
    respStatus (GETwithParams (Db.mk [advA] false false) ("") 20 1) = 200 ∧
      respTotal (GETwithParams (Db.mk [advA] false false) ("") 20 1)
        = (condRows [advA] (searchCond (""))).length ∧
      (("" : String) = "" → respTotal (GETwithParams (Db.mk [advA] false false) ("") 20 1)
        = [advA].length) ∧
      ((respTotalPages (GETwithParams (Db.mk [advA] false false) ("") 20 1) : Nat) : Int)
        = Int.ceil ((respTotal (GETwithParams (Db.mk [advA] false false) ("") 20 1) : ℚ)
            / (((20 : Int)) : ℚ)) :=
  get_total_and_pages (Db.mk [advA] false false) ("") 20 1 rfl rfl (by decide)

/-! ## Claim C3 -/

/-- Claim C3: on every successful GET with page number at least 1 and a
nonnegative page size, the `data` array is the contiguous slice of the
filtered rows starting at offset `(page - 1) * limit`, and it holds at
most `limit` rows. -/
theorem get_page_slice (db : Db) (search : String) (limit page : Int)
    (hc : db.countFails = false) (hs : db.selectFails = false)
    (hp : 1 ≤ page) (hl : 0 ≤ limit) :
    respData (GETwithParams db search limit page)
        = ((condRows db.table (searchCond search)).drop
            (((page - 1) * limit).toNat)).take limit.toNat ∧
      (respData (GETwithParams db search limit page)).length ≤ limit.toNat := by
  rw [GETwithParams_ok db search limit page hc hs]
  refine ⟨rfl, ?_⟩
  exact List.length_take_le _ _

/-- Witness for claim C3. -/
theorem get_page_slice_witness :
    respData (GETwithParams (Db.mk [advA, advB, advC] false false) ("") 2 2)
        = ((condRows [advA, advB, advC] (searchCond (""))).drop
            ((((2 : Int) - 1) * 2).toNat)).take (2 : Int).toNat ∧
      (respData (GETwithParams (Db.mk [advA, advB, advC] false false) ("") 2 2)).length
        ≤ (2 : Int).toNat :=
  get_page_slice (Db.mk [advA, advB, advC] false false) ("") 2 2 rfl rfl
    (by decide) (by decide)

/-! ## Claim C4 -/

/-- Claim C4: a non-empty search term that matches no row yields an
empty `data` array and `total` equal to 0, for every page and page
size. -/
theorem get_unmatched_empty (db : Db) (search : String) (limit page : Int)
    (hc : db.countFails = false) (hs : db.selectFails = false)
    (hne : search ≠ "") (hmatch : condRows db.table (searchCond search) = []) :
    respData (GETwithParams db search limit page) = [] ∧
      respTotal (GETwithParams db search limit page) = 0 := by
  rw [GETwithParams_ok db search limit page hc hs]
  constructor
  · show (((condRows db.table (searchCond search)).drop _).take _) = []
    rw [hmatch]
    simp
  · show (condRows db.table (searchCond search)).length = 0
    rw [hmatch]
    rfl

/-- Witness for claim C4. -/
theorem get_unmatched_empty_witness :
    respData (GETwithParams (Db.mk [advA] false false) ("zzz") 20 1) = [] ∧
      respTotal (GETwithParams (Db.mk [advA] false false) ("zzz") 20 1) = 0 :=
  get_unmatched_empty (Db.mk [advA] false false) ("zzz") 20 1 rfl rfl
    (by decide) (by decide)

/-! ## Claim C6 -/

/-- Claim C6: when the count query or the select query throws, the GET
request answers status 500 with the generic body
`{"error": "Failed to fetch advocates"}`; when neither throws, it
answers status 200 with the paginated payload — no error escapes the
request boundary. -/
theorem get_error_boundary (db : Db) (search : String) (limit page : Int) :
    ((db.countFails = true ∨ db.selectFails = true) →
        GETwithParams db search limit page
          = { status := 500, body := ResponseBody.failure ("Failed to fetch advocates") }) ∧
      (db.countFails = false → db.selectFails = false →
        respStatus (GETwithParams db search limit page) = 200 ∧
          (GETwithParams db search limit page).body.isPage = true) := by
  constructor
  · intro hfail
    unfold GETwithParams dbCount dbSelect
    rcases hfail with h | h
    · rw [h]
      simp
    · rw [h]
      cases hcf : db.countFails <;> simp
  · intro hc hs
    rw [GETwithParams_ok db search limit page hc hs]
    exact ⟨rfl, rfl⟩

/-- Witness for claim C6: one failing database and one healthy one. -/
theorem get_error_boundary_witness :
    (GETwithParams (Db.mk [] true false) ("") 20 1
        = { status := 500, body := ResponseBody.failure ("Failed to fetch advocates") }) ∧
      (respStatus (GETwithParams (Db.mk [] false false) ("") 20 1) = 200 ∧
        (GETwithParams (Db.mk [] false false) ("") 20 1).body.isPage = true) :=
  ⟨(get_error_boundary (Db.mk [] true false) ("") 20 1).1 (Or.inl rfl),
   (get_error_boundary (Db.mk [] false false) ("") 20 1).2 rfl rfl⟩

/-! ## Claim C7 -/

/-- Claim C7: the operation trace of a GET request consists only of
read operations (a count and a select), and applying the trace to the
table leaves it unchanged: no request inserts, updates or deletes a
row. -/
theorem get_readonly (search : String) (limit page : Int) (tbl : List Advocate) :
    ((GETops search limit page).foldl (fun t op => DbOp.applyTable op t) tbl) = tbl ∧
      (GETops search limit page).all DbOp.isRead = true :=
  ⟨rfl, rfl⟩

/-! ## Claim C9 -/

theorem digit_not_jsSpace {c : Char} (h : c.isDigit = true) : jsSpace c = false := by
  cases hjs : jsSpace c with
  | false => rfl
  | true =>
    have h2 := jsSpace_not_digit hjs
    rw [h] at h2
    exact absurd h2 (by decide)

/-- Claim C9: an absent or empty `search` parameter applies no filter
(every row is kept), an absent `limit` parameter parses to 20, an
absent `page` parameter parses to 1, and the parse of a digit string is
its base-10 value. -/
theorem get_default_params (sv lv pv : Option String) (tbl : List Advocate)
    (ds : List Char) :
    reqSearch (Req.mk none lv pv) = "" ∧
      reqSearch (Req.mk (some ("")) lv pv) = "" ∧
      condRows tbl (searchCond (reqSearch (Req.mk none lv pv))) = tbl ∧
      reqLimit (Req.mk sv none pv) = some 20 ∧
      reqPage (Req.mk sv lv none) = some 1 ∧
      (ds ≠ [] → (∀ c ∈ ds, c.isDigit = true) →
        parseIntJS (String.mk ds) = some ((digitsVal ds : Nat) : Int)) := by
  refine ⟨rfl, rfl, rfl, rfl, rfl, ?_⟩
  intro hne hdig
  unfold parseIntJS
  have hdrop : ((String.mk ds).toList.dropWhile jsSpace) = ds := by
    show ds.dropWhile jsSpace = ds
    cases ds with
    | nil => rfl
    | cons c0 t =>
      rw [List.dropWhile_cons,
        digit_not_jsSpace (hdig c0 (List.mem_cons_self c0 t))]
      simp
  rw [hdrop]
  cases ds with
  | nil => exact absurd rfl hne
  | cons c0 t =>
    have hc0 : c0.isDigit = true := hdig c0 (List.mem_cons_self c0 t)
    have hcm : c0 ≠ '-' := by
      intro h
      rw [h] at hc0
      exact absurd hc0 (by decide)
    have hcp : c0 ≠ '+' := by
      intro h
      rw [h] at hc0
      exact absurd hc0 (by decide)
    show (if c0 = '-' then (parseDigits t).map (fun n => -(n : Int))
        else if c0 = '+' then (parseDigits t).map (fun n => ((n : Nat) : Int))
        else (parseDigits (c0 :: t)).map (fun n => ((n : Nat) : Int)))
      = some ((digitsVal (c0 :: t) : Nat) : Int)
    rw [if_neg hcm, if_neg hcp]
    have htake : ((c0 :: t).takeWhile Char.isDigit) = c0 :: t := by
      have h2 := takeWhile_append_of Char.isDigit (c0 :: t) [] hdig
        (fun c hc => by simp at hc)
      simpa using h2
    unfold parseDigits
    rw [htake]
    simp

/-- Witness for claim C9. -/
theorem get_default_params_witness :
    reqSearch (Req.mk none none none) = "" ∧
      reqSearch (Req.mk (some ("")) none none) = "" ∧
      condRows [advA] (searchCond (reqSearch (Req.mk none none none))) = [advA] ∧
      reqLimit (Req.mk none none none) = some 20 ∧
      reqPage (Req.mk none none none) = some 1 ∧
      (['4', '2'] ≠ ([] : List Char) → (∀ c ∈ ['4', '2'], c.isDigit = true) →
        parseIntJS (String.mk ['4', '2']) = some ((digitsVal ['4', '2'] : Nat) : Int)) :=
  get_default_params none none none [advA] ['4', '2']

/-! ## Claim C10 -/

/-- Claim C10 fails as stated: the server reports zero pages for an
empty result set (`ceilPages 0 20 = 0`), and in the client state with
`currentPage = 1`, `totalPages = 0` and no load in flight the Next
button is enabled yet clicking it sets the current page to 0, breaking
the page-at-least-1 invariant. -/
theorem next_page_counterexample :
    ceilPages 0 20 = 0 ∧
      nextEnabled (ClientState.mk ("") 1 0 false) = true ∧
      (onNextPage (ClientState.mk ("") 1 0 false)).currentPage = 0 :=
  ⟨rfl, rfl, rfl⟩

/-- Claim C10 amended: Previous clamps to a minimum of 1, Reset and a
debounced-search change set the page to 1, and Next preserves the
page-at-least-1 invariant provided there is at least one result page
(`totalPages` at least 1). -/
theorem page_invariant_amended (s : ClientState) (h : 1 ≤ s.currentPage) :
    1 ≤ (onPreviousPage s).currentPage ∧
      (1 ≤ s.totalPages → 1 ≤ (onNextPage s).currentPage) ∧
      (onReset s).currentPage = 1 ∧
      (pageResetOnSearch s).currentPage = 1 := by
  refine ⟨?_, ?_, rfl, rfl⟩
  · show 1 ≤ max 1 (s.currentPage - 1)
    exact le_max_left 1 _
  · intro ht
    show 1 ≤ min s.totalPages (s.currentPage + 1)
    exact le_min ht (by omega)

/-- Witness for the amended claim C10. -/
theorem page_invariant_amended_witness :
    1 ≤ (onPreviousPage (ClientState.mk ("") 2 3 false)).currentPage ∧
      (1 ≤ (ClientState.mk ("") 2 3 false).totalPages →
        1 ≤ (onNextPage (ClientState.mk ("") 2 3 false)).currentPage) ∧
      (onReset (ClientState.mk ("") 2 3 false)).currentPage = 1 ∧
      (pageResetOnSearch (ClientState.mk ("") 2 3 false)).currentPage = 1 :=
  page_invariant_amended (ClientState.mk ("") 2 3 false) (by decide)

/-! ## Request-level handler -/

/-- The full route agrees with the handler body whenever `limit` and
`page` parse to integers, tying the request-level claims to
`GETwithParams`. -/
theorem GET_parses (db : Db) (r : Req) (l p : Int)
    (hl : reqLimit r = some l) (hp : reqPage r = some p) :
    GET db r = some (GETwithParams db (reqSearch r) l p) := by
  unfold GET
  rw [hl, hp]
